import Mathlib

/-!
Shallow embedding of the coursera-dl extractor core
(`src/coursera/extractors.py` and `src/coursera/models.py`).

The embedded walk is `CourseraExtractor._parse_on_demand_syllabus`:
modules → lessons → items in document order, with

* the empty-lesson fallback through the flat
  `OnDemandCourseMaterialItemsV1` index (`ondemand_material_items.get`),
* the per-type link-extraction dispatch (`if typename == ...` chain),
* the notebook one-shot guard (`self._notebook_downloaded`),
* run-level error aggregation (`error_occurred`),
* the optional top-level reversal (`if modules and reverse`),
* the course-level references walk appending a trailing
  `("Resources", ...)` entry.

The network/extraction routines live in `coursera/api.py`, which is not part
of the analysed sources; they are passed in as an opaque environment of
functions (`CourseApi`), exactly as `_parse_on_demand_syllabus` receives them
through the `CourseraOnDemand` object `course` and the flat index
`ondemand_material_items`.  The joined structure that
`module.children(all_lessons)` / `section.children(all_items)` produces is
likewise taken as input (`Module.lessons`, `Lesson.items`).

Database writes (`Module.get_or_create`, `Lesson.get_or_create`,
`Item.get_or_create`, `Reference.get_or_create` under `with database:`)
are recorded in the walk state: every item-level persist and dispatch is
logged as an event so that ordering facts are provable.
-/

namespace CourseraDL

/-- A link map, the value the `extract_links_from_*` routines return on
success.  In the Python source it is a `dict` mapping a format to a list of
links; only emptiness / non-emptiness drives control flow
(`elif links:`), so an association list is a faithful model. -/
abbrev LinkMap := List (String × String)

/-- An item (a "lecture" in the source's loop variable naming): one record of
`onDemandCourseMaterialItems.v2` after the join, carrying the fields the walk
reads: `lecture.id`, `lecture.name`, `lecture.slug`, `lecture.type_name`. -/
structure Item where
  id : String
  name : String
  slug : String
  type_name : String
deriving DecidableEq, Repr

/-- A lesson (a "section" in the source): `section.id`, `section.name`,
`section.slug`, plus the joined item list `section.children(all_items)`. -/
structure Lesson where
  id : String
  name : String
  slug : String
  items : List Item
deriving DecidableEq, Repr

/-- A module: `module.id`, `module.name`, `module.slug`,
`module.description`, plus the joined lesson list
`module.children(all_lessons)`. -/
structure Module where
  id : String
  name : String
  slug : String
  description : String
  lessons : List Lesson
deriving DecidableEq, Repr

/-- One record of the course-level reference poll
(`json_reference` in the source): fields `id`, `shortId`, `slug`, `name`. -/
structure RefJson where
  id : String
  shortId : String
  slug : String
  name : String
deriving DecidableEq, Repr

/-- The opaque extraction environment: the `CourseraOnDemand` methods that
`_parse_on_demand_syllabus` calls (all defined in `coursera/api.py`, outside
the analysed sources).  `none` models the `None` failure sentinel, `some []`
an empty link dict. -/
structure CourseApi where
  extract_links_from_lecture :
    String → String → String → Option String → Option LinkMap
  extract_links_from_supplement : String → Option LinkMap
  extract_links_from_peer_assignment : String → Option LinkMap
  extract_links_from_programming : String → Option LinkMap
  extract_links_from_quiz : String → Option LinkMap
  extract_links_from_exam : String → Option LinkMap
  extract_links_from_programming_immediate_instructions :
    String → Option LinkMap
  extract_links_from_notebook : String → Option LinkMap
  extract_references_poll : List RefJson
  extract_links_from_reference : String → Option LinkMap

/-- The keyword parameters of `_parse_on_demand_syllabus` other than
`reverse` (which the embedding passes separately, as the source does
positionally).  `unrestricted_filenames` and `mathjax_cdn_url` are only
forwarded to the `CourseraOnDemand` constructor; they are carried for
signature fidelity. -/
structure Params where
  unrestricted_filenames : Bool
  subtitle_language : String
  video_resolution : Option String
  download_quizzes : Bool
  mathjax_cdn_url : Option String
  download_notebooks : Bool
deriving Repr

/-! Stepwise decidable-equality instances for the nested tree type (the
default instance search does not reach this nesting depth). -/

instance decEqTree1 : DecidableEq (List (String × String)) := inferInstance

instance decEqTree2 : DecidableEq (String × List (String × String)) :=
  inferInstance

instance decEqTree3 : DecidableEq (List (String × List (String × String))) :=
  inferInstance

instance decEqTree4 :
    DecidableEq (String × List (String × List (String × String))) :=
  inferInstance

instance decEqTree5 :
    DecidableEq (List (String × List (String × List (String × String)))) :=
  inferInstance

instance decEqTree6 :
    DecidableEq
      (String × List (String × List (String × List (String × String)))) :=
  inferInstance

instance decEqTree7 :
    DecidableEq
      (List (String × List (String × List (String × List
        (String × String))))) :=
  inferInstance

/-- Result of one item's type dispatch.  `links o` is the final value of the
`links` variable (initialised to `{}`, possibly replaced by an extraction
call); `unsupported` is the `else: continue` branch for an unknown
`typename`. -/
inductive DispatchResult where
  | links : Option LinkMap → DispatchResult
  | unsupported : DispatchResult
deriving DecidableEq, Repr

/-- Events recorded per item, in execution order: the catalog write
`Item.get_or_create` (`persist`) followed by the type dispatch
(`dispatched`). -/
inductive ItemEvent where
  | persist : String → ItemEvent
  | dispatched : String → ItemEvent
deriving DecidableEq, Repr

/-- The mutable state threaded through the walk: the instance flag
`self._notebook_downloaded`, the local `error_occurred`, and instrumentation
recording the database writes and the `extract_links_from_notebook`
invocations. -/
structure WalkState where
  notebook_downloaded : Bool
  error_occurred : Bool
  itemTrace : List ItemEvent
  notebookCalls : List String
  results : List (Item × DispatchResult)
  persistedModules : List String
  persistedLessons : List String
  persistedRefs : List String
deriving DecidableEq, Repr

/-- Walk state at the top of `_parse_on_demand_syllabus`: `error_occurred =
False`, instrumentation empty, notebook flag inherited from the extractor
instance. -/
def initState (nb : Bool) : WalkState :=
  ⟨nb, false, [], [], [], [], [], []⟩

/-- The `if typename == ...` dispatch chain (extractors.py lines 216-267).
Returns the final `links` value, the updated `self._notebook_downloaded`
flag, and the list of item ids passed to `extract_links_from_notebook`
(empty or a singleton).  For `quiz` / `exam` / `programming` with
`download_quizzes` off, and for a guarded-off `notebook`, `links` keeps its
initial `{}` value, i.e. `some []`. -/
def dispatch (p : Params) (api : CourseApi) (class_id : String) (nb : Bool)
    (lecture : Item) : DispatchResult × Bool × List String :=
  match lecture.type_name with
  | "lecture" =>
      (.links (api.extract_links_from_lecture class_id lecture.id
        p.subtitle_language p.video_resolution), nb, [])
  | "supplement" =>
      (.links (api.extract_links_from_supplement lecture.id), nb, [])
  | "phasedPeer" =>
      (.links (api.extract_links_from_peer_assignment lecture.id), nb, [])
  | "gradedProgramming" =>
      (.links (api.extract_links_from_programming lecture.id), nb, [])
  | "ungradedProgramming" =>
      (.links (api.extract_links_from_programming lecture.id), nb, [])
  | "quiz" =>
      (.links (if p.download_quizzes
        then api.extract_links_from_quiz lecture.id else some []), nb, [])
  | "exam" =>
      (.links (if p.download_quizzes
        then api.extract_links_from_exam lecture.id else some []), nb, [])
  | "programming" =>
      (.links (if p.download_quizzes
        then api.extract_links_from_programming_immediate_instructions
          lecture.id else some []), nb, [])
  | "notebook" =>
      if p.download_notebooks && !nb then
        (.links (api.extract_links_from_notebook lecture.id), true,
          [lecture.id])
      else
        (.links (some []), nb, [])
  | _ => (.unsupported, nb, [])

/-- The `(lecture.slug, links)` pair appended to `lectures` when `links` is a
non-empty dict (`elif links:`); `none` when nothing is appended. -/
def entryOf (lecture : Item) (res : DispatchResult) :
    Option (String × LinkMap) :=
  match res with
  | .links (some l) => if l.isEmpty then none else some (lecture.slug, l)
  | _ => none

/-- Whether this dispatch result sets `error_occurred`
(`if links is None:`). -/
def errOf (res : DispatchResult) : Bool :=
  match res with
  | .links none => true
  | _ => false

/-- Body of the inner `for lecture in available_lectures:` loop:
`Item.get_or_create`, then the type dispatch, then the
`links is None` / `elif links` bookkeeping. -/
def processLecture (p : Params) (api : CourseApi) (class_id : String)
    (st : WalkState) (lecture : Item) :
    WalkState × Option (String × LinkMap) :=
  let d := dispatch p api class_id st.notebook_downloaded lecture
  ({ st with
      itemTrace := st.itemTrace ++
        [.persist lecture.id, .dispatched lecture.id],
      notebook_downloaded := d.2.1,
      notebookCalls := st.notebookCalls ++ d.2.2,
      results := st.results ++ [(lecture, d.1)],
      error_occurred := st.error_occurred || errOf d.1 },
    entryOf lecture d.1)

/-- The inner loop over `available_lectures`, producing the `lectures`
list in append order. -/
def processLectures (p : Params) (api : CourseApi) (class_id : String)
    (st : WalkState) : List Item → WalkState × List (String × LinkMap)
  | [] => (st, [])
  | lec :: rest =>
      let s1 := processLecture p api class_id st lec
      let s2 := processLectures p api class_id s1.1 rest
      (s2.1, s1.2.toList ++ s2.2)

/-- The `available_lectures` computation (extractors.py lines 191-199):
the joined item list, or — when it is empty — the single item the flat
`ondemand_material_items` index holds under the lesson's id, or nothing. -/
def availableLectures (index : String → Option Item) (sec : Lesson) :
    List Item :=
  if sec.items.isEmpty then
    match index sec.id with
    | some lecture => [lecture]
    | none => []
  else sec.items

/-- Body of the `for section in module.children(all_lessons):` loop:
`Lesson.get_or_create`, the fallback lookup, the item loop, and the
`if lectures:` append guard. -/
def processSection (p : Params) (api : CourseApi) (class_id : String)
    (index : String → Option Item) (st : WalkState) (sec : Lesson) :
    WalkState × Option (String × List (String × LinkMap)) :=
  let st0 := { st with persistedLessons := st.persistedLessons ++ [sec.id] }
  let s1 := processLectures p api class_id st0 (availableLectures index sec)
  (s1.1, if s1.2.isEmpty then none else some (sec.slug, s1.2))

/-- The loop over a module's lessons, producing the `lessons` list. -/
def processSections (p : Params) (api : CourseApi) (class_id : String)
    (index : String → Option Item) (st : WalkState) :
    List Lesson → WalkState × List (String × List (String × LinkMap))
  | [] => (st, [])
  | sec :: rest =>
      let s1 := processSection p api class_id index st sec
      let s2 := processSections p api class_id index s1.1 rest
      (s2.1, s1.2.toList ++ s2.2)

/-- Body of the `for module in all_modules:` loop: `Module.get_or_create`,
the lesson loop, and the `if lessons:` append guard. -/
def processModule (p : Params) (api : CourseApi) (class_id : String)
    (index : String → Option Item) (st : WalkState) (m : Module) :
    WalkState × Option (String × List (String × List (String × LinkMap))) :=
  let st0 := { st with persistedModules := st.persistedModules ++ [m.id] }
  let s1 := processSections p api class_id index st0 m.lessons
  (s1.1, if s1.2.isEmpty then none else some (m.slug, s1.2))

/-- The loop over all modules, producing the `modules` list (before
reversal and the references section). -/
def processModules (p : Params) (api : CourseApi) (class_id : String)
    (index : String → Option Item) (st : WalkState) :
    List Module →
      WalkState × List (String × List (String × List (String × LinkMap)))
  | [] => (st, [])
  | m :: rest =>
      let s1 := processModule p api class_id index st m
      let s2 := processModules p api class_id index s1.1 rest
      (s2.1, s1.2.toList ++ s2.2)

/-- Body of the `for json_reference in json_references:` loop:
`Reference.get_or_create`, `extract_links_from_reference`, the
`links is None` / `elif links` bookkeeping on the singleton `reference`
list, and the `if reference:` append guard. -/
def processReference (api : CourseApi) (st : WalkState) (r : RefJson) :
    WalkState × Option (String × List (String × LinkMap)) :=
  let st0 := { st with persistedRefs := st.persistedRefs ++ [r.id] }
  match api.extract_links_from_reference r.shortId with
  | none => ({ st0 with error_occurred := true }, none)
  | some l =>
      (st0, if l.isEmpty then none else some (r.slug, [("", l)]))

/-- The references loop, producing the `references` list. -/
def processReferences (api : CourseApi) (st : WalkState) :
    List RefJson → WalkState × List (String × List (String × LinkMap))
  | [] => (st, [])
  | r :: rest =>
      let s1 := processReference api st r
      let s2 := processReferences api s1.1 rest
      (s2.1, s1.2.toList ++ s2.2)

/-- `_parse_on_demand_syllabus` (extractors.py lines 99-314) from the point
where the joined collections exist: the module walk, the conditional
top-level reversal (`if modules and reverse: modules.reverse()`), the
references walk, the conditional `modules.append(("Resources",
references))`, and the `(error_occurred, modules)` return value.  The final
walk state is also returned so that instance-state and instrumentation facts
can be stated. -/
def parse_on_demand_syllabus (p : Params) (api : CourseApi)
    (class_id : String) (reverse : Bool) (index : String → Option Item)
    (mods : List Module) (st : WalkState) :
    Bool × List (String × List (String × List (String × LinkMap)))
      × WalkState :=
  let s1 := processModules p api class_id index st mods
  let modules :=
    if !s1.2.isEmpty && reverse then s1.2.reverse else s1.2
  let s2 := processReferences api s1.1 api.extract_references_poll
  let modules :=
    if s2.2.isEmpty then modules else modules ++ [("Resources", s2.2)]
  (s2.1.error_occurred, modules, s2.1)

/-- The extractor instance state: `self._notebook_downloaded`, set in
`CourseraExtractor.__init__`. -/
structure CourseraExtractor where
  notebook_downloaded : Bool
deriving DecidableEq, Repr

/-- `CourseraExtractor.__init__`: `self._notebook_downloaded = False`. -/
def CourseraExtractor.init : CourseraExtractor := ⟨false⟩

/-- `CourseraExtractor.get_modules`: runs the syllabus parse with the
instance's notebook flag and fresh run-local state, returning the
`(error_occurred, modules)` pair, the updated instance, and the final walk
state. -/
def get_modules (e : CourseraExtractor) (p : Params) (api : CourseApi)
    (class_id : String) (reverse : Bool) (index : String → Option Item)
    (mods : List Module) :
    (Bool × List (String × List (String × List (String × LinkMap))))
      × CourseraExtractor × WalkState :=
  let r := parse_on_demand_syllabus p api class_id reverse index mods
    (initState e.notebook_downloaded)
  ((r.1, r.2.1), ⟨r.2.2.notebook_downloaded⟩, r.2.2)

/-! ### Pure characterizations of the walk

The state-passing functions above mirror the Python loops literally.  For
proofs it is convenient to have pure "denotations" computing, from the
initial notebook flag alone, each component of the walk's effect; the
lemmas below show the state-passing walk equals them. -/

/-- Effect of a run over a list of items: final notebook flag, error flag
contribution, notebook invocations, per-item dispatch results, and the
`lectures` entries produced. -/
structure ItemsOut where
  nb : Bool
  err : Bool
  calls : List String
  results : List (Item × DispatchResult)
  entries : List (String × LinkMap)
deriving DecidableEq, Repr

/-- Denotation of `processLectures`. -/
def itemsDen (p : Params) (api : CourseApi) (class_id : String) (nb : Bool) :
    List Item → ItemsOut
  | [] => ⟨nb, false, [], [], []⟩
  | lec :: rest =>
      let d := dispatch p api class_id nb lec
      let o := itemsDen p api class_id d.2.1 rest
      ⟨o.nb, errOf d.1 || o.err, d.2.2 ++ o.calls, (lec, d.1) :: o.results,
        (entryOf lec d.1).toList ++ o.entries⟩

/-- The item-level event trace of a list of items: persist, then dispatch,
for each in order. -/
def itemTraceOf (items : List Item) : List ItemEvent :=
  items.flatMap fun it => [.persist it.id, .dispatched it.id]

/-- All items a list of lessons reaches, fallback included. -/
def reachedOfSections (index : String → Option Item) (secs : List Lesson) :
    List Item :=
  secs.flatMap (availableLectures index)

/-- All items a syllabus walk reaches, fallback included. -/
def reachedItems (index : String → Option Item) (mods : List Module) :
    List Item :=
  mods.flatMap fun m => reachedOfSections index m.lessons

/-- The `lessons` entries a list of lessons produces, threading the notebook
flag. -/
def sectionEntries (p : Params) (api : CourseApi) (class_id : String)
    (index : String → Option Item) (nb : Bool) :
    List Lesson → List (String × List (String × LinkMap))
  | [] => []
  | sec :: rest =>
      let o := itemsDen p api class_id nb (availableLectures index sec)
      (if o.entries.isEmpty then [] else [(sec.slug, o.entries)]) ++
        sectionEntries p api class_id index o.nb rest

/-- The `modules` entries (before reversal) a list of modules produces. -/
def moduleEntries (p : Params) (api : CourseApi) (class_id : String)
    (index : String → Option Item) (nb : Bool) :
    List Module → List (String × List (String × List (String × LinkMap)))
  | [] => []
  | m :: rest =>
      let les := sectionEntries p api class_id index nb m.lessons
      let nb2 := (itemsDen p api class_id nb
        (reachedOfSections index m.lessons)).nb
      (if les.isEmpty then [] else [(m.slug, les)]) ++
        moduleEntries p api class_id index nb2 rest

/-- Effect of the references loop: error contribution, persisted reference
ids, and the `references` entries. -/
structure RefsOut where
  err : Bool
  refIds : List String
  entries : List (String × List (String × LinkMap))
deriving DecidableEq, Repr

/-- Denotation of `processReferences`. -/
def refsDen (api : CourseApi) : List RefJson → RefsOut
  | [] => ⟨false, [], []⟩
  | r :: rest =>
      let o := refsDen api rest
      ⟨(api.extract_links_from_reference r.shortId).isNone || o.err,
        r.id :: o.refIds,
        (match api.extract_links_from_reference r.shortId with
          | none => []
          | some l => if l.isEmpty then [] else [(r.slug, [("", l)])]) ++
          o.entries⟩

/-- The notebook-typed entries of a result list. -/
def nbFilter (rs : List (Item × DispatchResult)) :
    List (Item × DispatchResult) :=
  rs.filter fun r => r.1.type_name == "notebook"

/-! ### Catalog store model

The call sites in `extractors.py` invoke peewee's `Model.get_or_create`
with all attributes of the row; the tables in `models.py` declare each
entity's external id `unique=True`. -/

/-- A catalog row: the unique external id plus the remaining attributes. -/
structure StoreRow where
  key : String
  attrs : List (String × String)
deriving DecidableEq, Repr

/-- Insertion into a table whose key column is declared `unique=True`
(models.py): inserting a duplicate key raises a conflict. -/
def storeInsert (table : List StoreRow) (row : StoreRow) :
    Except Unit (List StoreRow) :=
  if table.any fun r => r.key == row.key then .error ()
  else .ok (table ++ [row])

/-- Modelled from the spec: peewee's `Model.get_or_create` implementation is
library code outside `src/` (only its call sites in `extractors.py` and the
table declarations in `models.py` are analysed).  Spec §4.4:
"if a row with the given unique external id exists, return it unchanged;
otherwise insert with the supplied attributes."  The returned flag is
peewee's `created` boolean. -/
def get_or_create (table : List StoreRow) (key : String)
    (attrs : List (String × String)) :
    Except Unit (StoreRow × List StoreRow × Bool) :=
  match table.find? (fun r => r.key == key) with
  | some r => .ok (r, table, false)
  | none =>
      match storeInsert table ⟨key, attrs⟩ with
      | .ok t => .ok (⟨key, attrs⟩, t, true)
      | .error e => .error e

/-! ### Schema self-healing (`create_db_course`) -/

/-- Outcome of one execution of `Course.get_or_create` inside
`create_db_course`: success, `peewee.OperationalError` (the missing-schema
error the `except` clause catches), or any other exception. -/
inductive DbAttempt where
  | ok
  | operationalError
  | otherError
deriving DecidableEq, Repr

/-- Observable actions of `create_db_course`. -/
inductive DbAction where
  | getOrCreateAttempt
  | createTablesCall
deriving DecidableEq, Repr

/-- `CourseraExtractor.create_db_course` (extractors.py lines 48-64): try
`Course.get_or_create`; on `OperationalError` run `create_tables()`
(models.py) and retry the same call once, outside any `except` clause.  The
two oracle arguments give the outcome of the first and (if reached) second
execution; returned are the exception that propagates to the caller (if
any) and the trace of actions performed. -/
def create_db_course (first second : DbAttempt) :
    Option DbAttempt × List DbAction :=
  match first with
  | .ok => (none, [.getOrCreateAttempt])
  | .operationalError =>
      ((match second with
        | .ok => none
        | e => some e),
        [.getOrCreateAttempt, .createTablesCall, .getOrCreateAttempt])
  | .otherError => (some .otherError, [.getOrCreateAttempt])

/-! ### Concrete inputs used by witnesses and counterexamples -/

/-- An extraction environment where everything succeeds with an empty link
map and the reference poll is empty. -/
def baseApi : CourseApi where
  extract_links_from_lecture := fun _ _ _ _ => some []
  extract_links_from_supplement := fun _ => some []
  extract_links_from_peer_assignment := fun _ => some []
  extract_links_from_programming := fun _ => some []
  extract_links_from_quiz := fun _ => some []
  extract_links_from_exam := fun _ => some []
  extract_links_from_programming_immediate_instructions := fun _ => some []
  extract_links_from_notebook := fun _ => some []
  extract_references_poll := []
  extract_links_from_reference := fun _ => some []

/-- Default policy parameters. -/
def baseParams : Params := ⟨false, "en", none, false, none, false⟩

/-- A flat item index with no entries. -/
def noIndex : String → Option Item := fun _ => none

def c1ItemA : Item := ⟨"a", "A", "as", "lecture"⟩

def c1ItemB : Item := ⟨"b", "B", "bs", "supplement"⟩

def c1Lesson : Lesson := ⟨"l1", "L1", "l1s", [c1ItemA, c1ItemB]⟩

def c1Module : Module := ⟨"m1", "M1", "m1s", "", [c1Lesson]⟩

/-- Environment where the lecture extraction fails (`None`) and the
supplement extraction yields one link. -/
def c1Api : CourseApi :=
  { baseApi with
      extract_links_from_lecture := fun _ _ _ _ => none,
      extract_links_from_supplement := fun _ => some [("f", "u")] }

def c2Nb1 : Item := ⟨"n1", "N1", "n1s", "notebook"⟩

def c2Nb2 : Item := ⟨"n2", "N2", "n2s", "notebook"⟩

def c2Lesson : Lesson := ⟨"l2", "L2", "l2s", [c2Nb1, c2Nb2]⟩

def c2Module : Module := ⟨"m2", "M2", "m2s", "", [c2Lesson]⟩

/-- Environment whose notebook extraction yields one link. -/
def c2Api : CourseApi :=
  { baseApi with extract_links_from_notebook := fun _ => some [("n", "u")] }

/-- Policy with `download_notebooks=True`. -/
def c2Params : Params := { baseParams with download_notebooks := true }

def c3Item : Item := ⟨"i3", "I3", "i3s", "supplement"⟩

/-- A lesson whose joined item list is empty. -/
def c3Lesson : Lesson := ⟨"l3", "L3", "l3s", []⟩

def c3Module : Module := ⟨"m3", "M3", "m3s", "", [c3Lesson]⟩

/-- A flat item index holding `c3Item` under the empty lesson's id. -/
def c3Index : String → Option Item :=
  fun s => if s == "l3" then some c3Item else none

/-- Environment where the fallback item's supplement extraction succeeds. -/
def c3Api : CourseApi :=
  { baseApi with extract_links_from_supplement := fun _ => some [("f", "u")] }

/-- Environment where the fallback item's supplement extraction returns the
failure sentinel. -/
def c3xApi : CourseApi :=
  { baseApi with extract_links_from_supplement := fun _ => none }

def c5Ref : RefJson := ⟨"r5", "sr5", "r5s", "R5"⟩

/-- Environment with one course-level reference whose extraction yields one
link. -/
def c5Api : CourseApi :=
  { baseApi with
      extract_references_poll := [c5Ref],
      extract_links_from_reference := fun _ => some [("f", "u")] }

/-- Environment with a non-empty reference poll whose extractions all yield
empty link maps. -/
def c8Api : CourseApi :=
  { baseApi with extract_references_poll := [⟨"r8", "sr8", "r8s", "R8"⟩] }

/-- Environment with one reference yielding a non-empty link map. -/
def c8wApi : CourseApi :=
  { baseApi with
      extract_references_poll := [⟨"r8w", "sr8w", "r8ws", "R8w"⟩],
      extract_links_from_reference := fun _ => some [("g", "v")] }

/-- A one-row catalog table. -/
def c6Table : List StoreRow := [⟨"k1", [("name", "old")]⟩]

theorem itemsDen_append (p : Params) (api : CourseApi) (class_id : String)
    (xs ys : List Item) (nb : Bool) :
    itemsDen p api class_id nb (xs ++ ys) =
      ⟨(itemsDen p api class_id (itemsDen p api class_id nb xs).nb ys).nb,
        (itemsDen p api class_id nb xs).err ||
          (itemsDen p api class_id (itemsDen p api class_id nb xs).nb ys).err,
        (itemsDen p api class_id nb xs).calls ++
          (itemsDen p api class_id
            (itemsDen p api class_id nb xs).nb ys).calls,
        (itemsDen p api class_id nb xs).results ++
          (itemsDen p api class_id
            (itemsDen p api class_id nb xs).nb ys).results,
        (itemsDen p api class_id nb xs).entries ++
          (itemsDen p api class_id
            (itemsDen p api class_id nb xs).nb ys).entries⟩ := by
  induction xs generalizing nb with
  | nil => simp [itemsDen]
  | cons x rest ih =>
      simp [itemsDen, ih, Bool.or_assoc, List.append_assoc]

theorem processLectures_den (p : Params) (api : CourseApi)
    (class_id : String) (items : List Item) (st : WalkState) :
    processLectures p api class_id st items =
      ({ st with
          notebook_downloaded :=
            (itemsDen p api class_id st.notebook_downloaded items).nb,
          error_occurred := st.error_occurred ||
            (itemsDen p api class_id st.notebook_downloaded items).err,
          itemTrace := st.itemTrace ++ itemTraceOf items,
          notebookCalls := st.notebookCalls ++
            (itemsDen p api class_id st.notebook_downloaded items).calls,
          results := st.results ++
            (itemsDen p api class_id st.notebook_downloaded items).results },
        (itemsDen p api class_id st.notebook_downloaded items).entries) := by
  induction items generalizing st with
  | nil => simp [processLectures, itemsDen, itemTraceOf]
  | cons lec rest ih =>
      simp only [processLectures, processLecture, itemsDen, ih, itemTraceOf,
        List.flatMap_cons]
      simp [Bool.or_assoc, List.append_assoc]

theorem processSections_den (p : Params) (api : CourseApi)
    (class_id : String) (index : String → Option Item)
    (secs : List Lesson) (st : WalkState) :
    processSections p api class_id index st secs =
      ({ st with
          notebook_downloaded :=
            (itemsDen p api class_id st.notebook_downloaded
              (reachedOfSections index secs)).nb,
          error_occurred := st.error_occurred ||
            (itemsDen p api class_id st.notebook_downloaded
              (reachedOfSections index secs)).err,
          itemTrace := st.itemTrace ++
            itemTraceOf (reachedOfSections index secs),
          notebookCalls := st.notebookCalls ++
            (itemsDen p api class_id st.notebook_downloaded
              (reachedOfSections index secs)).calls,
          results := st.results ++
            (itemsDen p api class_id st.notebook_downloaded
              (reachedOfSections index secs)).results,
          persistedLessons := st.persistedLessons ++ secs.map Lesson.id },
        sectionEntries p api class_id index st.notebook_downloaded secs) := by
  induction secs generalizing st with
  | nil =>
      simp [processSections, itemsDen, reachedOfSections, itemTraceOf,
        sectionEntries]
  | cons sec rest ih =>
      simp only [processSections, processSection, processLectures_den, ih,
        sectionEntries]
      simp only [reachedOfSections, List.flatMap_cons, itemsDen_append,
        itemTraceOf, List.flatMap_append]
      by_cases h : (itemsDen p api class_id st.notebook_downloaded
        (availableLectures index sec)).entries.isEmpty <;>
        simp [h, Bool.or_assoc, List.append_assoc, itemTraceOf,
          List.flatMap_append]

theorem processModules_den (p : Params) (api : CourseApi)
    (class_id : String) (index : String → Option Item)
    (mods : List Module) (st : WalkState) :
    processModules p api class_id index st mods =
      ({ st with
          notebook_downloaded :=
            (itemsDen p api class_id st.notebook_downloaded
              (reachedItems index mods)).nb,
          error_occurred := st.error_occurred ||
            (itemsDen p api class_id st.notebook_downloaded
              (reachedItems index mods)).err,
          itemTrace := st.itemTrace ++
            itemTraceOf (reachedItems index mods),
          notebookCalls := st.notebookCalls ++
            (itemsDen p api class_id st.notebook_downloaded
              (reachedItems index mods)).calls,
          results := st.results ++
            (itemsDen p api class_id st.notebook_downloaded
              (reachedItems index mods)).results,
          persistedModules := st.persistedModules ++ mods.map Module.id,
          persistedLessons := st.persistedLessons ++
            (mods.flatMap fun m => m.lessons.map Lesson.id) },
        moduleEntries p api class_id index st.notebook_downloaded mods) := by
  induction mods generalizing st with
  | nil =>
      simp [processModules, itemsDen, reachedItems, itemTraceOf,
        moduleEntries]
  | cons m rest ih =>
      simp only [processModules, processModule, processSections_den, ih,
        moduleEntries]
      simp only [reachedItems, List.flatMap_cons, itemsDen_append,
        itemTraceOf, List.flatMap_append]
      by_cases h : (sectionEntries p api class_id index
        st.notebook_downloaded m.lessons).isEmpty <;>
        simp [h, Bool.or_assoc, List.append_assoc, itemTraceOf,
          List.flatMap_append, reachedItems]

theorem processReferences_den (api : CourseApi) (rs : List RefJson)
    (st : WalkState) :
    processReferences api st rs =
      ({ st with
          error_occurred := st.error_occurred || (refsDen api rs).err,
          persistedRefs := st.persistedRefs ++ (refsDen api rs).refIds },
        (refsDen api rs).entries) := by
  induction rs generalizing st with
  | nil => simp [processReferences, refsDen]
  | cons r rest ih =>
      simp only [processReferences, processReference, ih, refsDen]
      cases hl : api.extract_links_from_reference r.shortId with
      | none => simp [hl, Bool.or_assoc, List.append_assoc]
      | some l =>
          by_cases h : l.isEmpty <;>
            simp [hl, h, Bool.or_assoc, List.append_assoc]

/-- Full characterization of `_parse_on_demand_syllabus` in terms of the
pure denotations. -/
theorem parse_den (p : Params) (api : CourseApi) (class_id : String)
    (reverse : Bool) (index : String → Option Item) (mods : List Module)
    (st : WalkState) :
    parse_on_demand_syllabus p api class_id reverse index mods st =
      (st.error_occurred ||
          (itemsDen p api class_id st.notebook_downloaded
            (reachedItems index mods)).err ||
          (refsDen api api.extract_references_poll).err,
        (if !(moduleEntries p api class_id index st.notebook_downloaded
              mods).isEmpty && reverse
          then (moduleEntries p api class_id index st.notebook_downloaded
            mods).reverse
          else moduleEntries p api class_id index st.notebook_downloaded
            mods) ++
          (if (refsDen api api.extract_references_poll).entries.isEmpty
            then []
            else [("Resources",
              (refsDen api api.extract_references_poll).entries)]),
        { st with
          notebook_downloaded :=
            (itemsDen p api class_id st.notebook_downloaded
              (reachedItems index mods)).nb,
          error_occurred := st.error_occurred ||
            (itemsDen p api class_id st.notebook_downloaded
              (reachedItems index mods)).err ||
            (refsDen api api.extract_references_poll).err,
          itemTrace := st.itemTrace ++
            itemTraceOf (reachedItems index mods),
          notebookCalls := st.notebookCalls ++
            (itemsDen p api class_id st.notebook_downloaded
              (reachedItems index mods)).calls,
          results := st.results ++
            (itemsDen p api class_id st.notebook_downloaded
              (reachedItems index mods)).results,
          persistedModules := st.persistedModules ++ mods.map Module.id,
          persistedLessons := st.persistedLessons ++
            (mods.flatMap fun m => m.lessons.map Lesson.id),
          persistedRefs := st.persistedRefs ++
            (refsDen api api.extract_references_poll).refIds }) := by
  simp only [parse_on_demand_syllabus, processModules_den,
    processReferences_den]
  by_cases h : (refsDen api api.extract_references_poll).entries.isEmpty <;>
    simp [h, Bool.or_assoc]

/-- Full characterization of `get_modules` in terms of the pure
denotations. -/
theorem get_modules_den (e : CourseraExtractor) (p : Params)
    (api : CourseApi) (class_id : String) (reverse : Bool)
    (index : String → Option Item) (mods : List Module) :
    get_modules e p api class_id reverse index mods =
      (((itemsDen p api class_id e.notebook_downloaded
            (reachedItems index mods)).err ||
          (refsDen api api.extract_references_poll).err,
        (if !(moduleEntries p api class_id index e.notebook_downloaded
              mods).isEmpty && reverse
          then (moduleEntries p api class_id index e.notebook_downloaded
            mods).reverse
          else moduleEntries p api class_id index e.notebook_downloaded
            mods) ++
          (if (refsDen api api.extract_references_poll).entries.isEmpty
            then []
            else [("Resources",
              (refsDen api api.extract_references_poll).entries)])),
        ⟨(itemsDen p api class_id e.notebook_downloaded
            (reachedItems index mods)).nb⟩,
        ⟨(itemsDen p api class_id e.notebook_downloaded
            (reachedItems index mods)).nb,
          (itemsDen p api class_id e.notebook_downloaded
            (reachedItems index mods)).err ||
            (refsDen api api.extract_references_poll).err,
          itemTraceOf (reachedItems index mods),
          (itemsDen p api class_id e.notebook_downloaded
            (reachedItems index mods)).calls,
          (itemsDen p api class_id e.notebook_downloaded
            (reachedItems index mods)).results,
          mods.map Module.id,
          mods.flatMap fun m => m.lessons.map Lesson.id,
          (refsDen api api.extract_references_poll).refIds⟩) := by
  simp [get_modules, parse_den, initState]

theorem itemsDen_results_map_fst (p : Params) (api : CourseApi)
    (class_id : String) (items : List Item) : ∀ nb,
    (itemsDen p api class_id nb items).results.map Prod.fst = items := by
  induction items with
  | nil => intro nb; simp [itemsDen]
  | cons x rest ih => intro nb; simp [itemsDen, ih]

theorem itemsDen_err_eq (p : Params) (api : CourseApi) (class_id : String)
    (items : List Item) : ∀ nb,
    (itemsDen p api class_id nb items).err =
      (itemsDen p api class_id nb items).results.any fun r => errOf r.2 := by
  induction items with
  | nil => intro nb; simp [itemsDen]
  | cons x rest ih => intro nb; simp [itemsDen, ih]

theorem itemsDen_entries_nonempty (p : Params) (api : CourseApi)
    (class_id : String) (items : List Item) : ∀ nb,
    ∀ en ∈ (itemsDen p api class_id nb items).entries, en.2 ≠ [] := by
  induction items with
  | nil => intro nb; simp [itemsDen]
  | cons x rest ih =>
      intro nb en hen
      simp only [itemsDen, List.mem_append] at hen
      rcases hen with hen | hen
      · rcases hl : (dispatch p api class_id nb x).1 with lo | _
        · rcases lo with _ | l
          · simp [entryOf, hl] at hen
          · by_cases hle : l.isEmpty
            · simp [entryOf, hl, hle] at hen
            · simp only [entryOf, hl, hle, Bool.false_eq_true,
                if_false, Option.toList_some, List.mem_singleton] at hen
              subst hen
              simpa [List.isEmpty_iff] using hle
        · simp [entryOf, hl] at hen
      · exact ih _ en hen

theorem itemsDen_mem_entries (p : Params) (api : CourseApi)
    (class_id : String) (items : List Item) : ∀ nb (it : Item) (l : LinkMap),
    (it, DispatchResult.links (some l)) ∈
      (itemsDen p api class_id nb items).results → l ≠ [] →
    (it.slug, l) ∈ (itemsDen p api class_id nb items).entries := by
  induction items with
  | nil => intro nb it l h; simp [itemsDen] at h
  | cons x rest ih =>
      intro nb it l h hl
      simp only [itemsDen, List.mem_cons] at h
      simp only [itemsDen, List.mem_append]
      rcases h with h | h
      · left
        rw [Prod.mk.injEq] at h
        obtain ⟨h1, h2⟩ := h
        subst h1
        simp [entryOf, ← h2, List.isEmpty_iff, hl]
      · right
        exact ih _ it l h hl

theorem sectionEntries_mem (p : Params) (api : CourseApi)
    (class_id : String) (index : String → Option Item)
    (secs : List Lesson) : ∀ nb (it : Item) (l : LinkMap),
    (it, DispatchResult.links (some l)) ∈
      (itemsDen p api class_id nb (reachedOfSections index secs)).results →
    l ≠ [] →
    ∃ le ∈ sectionEntries p api class_id index nb secs,
      (it.slug, l) ∈ le.2 := by
  induction secs with
  | nil =>
      intro nb it l h
      simp [reachedOfSections, itemsDen] at h
  | cons sec rest ih =>
      intro nb it l h hl
      rw [reachedOfSections, List.flatMap_cons, itemsDen_append] at h
      simp only [List.mem_append] at h
      rcases h with h | h
      · have hmem := itemsDen_mem_entries p api class_id
          (availableLectures index sec) nb it l h hl
        refine ⟨(sec.slug,
          (itemsDen p api class_id nb (availableLectures index sec)).entries),
          ?_, hmem⟩
        have hne : ¬ (itemsDen p api class_id nb
            (availableLectures index sec)).entries.isEmpty :=
          fun hcon => by
            rw [List.isEmpty_iff] at hcon
            exact absurd (hcon ▸ hmem) (List.not_mem_nil _)
        simp [sectionEntries, hne]
      · obtain ⟨le, hle, hmem⟩ := ih _ it l h hl
        refine ⟨le, ?_, hmem⟩
        simp [sectionEntries, reachedOfSections, List.mem_append]
        right
        exact hle

theorem moduleEntries_mem (p : Params) (api : CourseApi)
    (class_id : String) (index : String → Option Item)
    (mods : List Module) : ∀ nb (it : Item) (l : LinkMap),
    (it, DispatchResult.links (some l)) ∈
      (itemsDen p api class_id nb (reachedItems index mods)).results →
    l ≠ [] →
    ∃ me ∈ moduleEntries p api class_id index nb mods,
      ∃ le ∈ me.2, (it.slug, l) ∈ le.2 := by
  induction mods with
  | nil =>
      intro nb it l h
      simp [reachedItems, itemsDen] at h
  | cons m rest ih =>
      intro nb it l h hl
      rw [reachedItems, List.flatMap_cons, itemsDen_append] at h
      simp only [List.mem_append] at h
      rcases h with h | h
      · obtain ⟨le, hle, hmem⟩ :=
          sectionEntries_mem p api class_id index m.lessons nb it l h hl
        refine ⟨(m.slug, sectionEntries p api class_id index nb m.lessons),
          ?_, le, hle, hmem⟩
        have hne : ¬ (sectionEntries p api class_id index nb
            m.lessons).isEmpty :=
          fun hcon => by
            rw [List.isEmpty_iff] at hcon
            exact absurd (hcon ▸ hle) (List.not_mem_nil _)
        simp [moduleEntries, hne]
      · obtain ⟨me, hme, rest2⟩ := ih _ it l h hl
        refine ⟨me, ?_, rest2⟩
        simp [moduleEntries, reachedItems, List.mem_append]
        right
        exact hme

theorem sectionEntries_nonempty (p : Params) (api : CourseApi)
    (class_id : String) (index : String → Option Item)
    (secs : List Lesson) : ∀ nb,
    ∀ le ∈ sectionEntries p api class_id index nb secs,
      le.2 ≠ [] ∧ ∀ ie ∈ le.2, ie.2 ≠ [] := by
  induction secs with
  | nil => intro nb; simp [sectionEntries]
  | cons sec rest ih =>
      intro nb le hle
      simp only [sectionEntries, List.mem_append] at hle
      rcases hle with hle | hle
      · by_cases hne : (itemsDen p api class_id nb
          (availableLectures index sec)).entries.isEmpty
        · simp [hne] at hle
        · simp only [hne, Bool.false_eq_true, if_false,
            List.mem_singleton] at hle
          subst hle
          refine ⟨by simpa [List.isEmpty_iff] using hne, ?_⟩
          exact itemsDen_entries_nonempty p api class_id _ nb
      · exact ih _ le hle

theorem moduleEntries_nonempty (p : Params) (api : CourseApi)
    (class_id : String) (index : String → Option Item)
    (mods : List Module) : ∀ nb,
    ∀ me ∈ moduleEntries p api class_id index nb mods,
      me.2 ≠ [] ∧ ∀ le ∈ me.2, le.2 ≠ [] ∧ ∀ ie ∈ le.2, ie.2 ≠ [] := by
  induction mods with
  | nil => intro nb; simp [moduleEntries]
  | cons m rest ih =>
      intro nb me hme
      simp only [moduleEntries, List.mem_append] at hme
      rcases hme with hme | hme
      · by_cases hne : (sectionEntries p api class_id index nb
          m.lessons).isEmpty
        · simp [hne] at hme
        · simp only [hne, Bool.false_eq_true, if_false,
            List.mem_singleton] at hme
          subst hme
          refine ⟨by simpa [List.isEmpty_iff] using hne, ?_⟩
          exact sectionEntries_nonempty p api class_id index m.lessons nb
      · exact ih _ me hme

theorem refsDen_entries_nonempty (api : CourseApi) (rs : List RefJson) :
    ∀ le ∈ (refsDen api rs).entries,
      le.2 ≠ [] ∧ ∀ ie ∈ le.2, ie.2 ≠ [] := by
  induction rs with
  | nil => simp [refsDen]
  | cons r rest ih =>
      intro le hle
      simp only [refsDen, List.mem_append] at hle
      rcases hle with hle | hle
      · cases hl : api.extract_links_from_reference r.shortId with
        | none => simp [hl] at hle
        | some l =>
            by_cases he : l.isEmpty
            · simp [hl, he] at hle
            · simp only [hl, he, Bool.false_eq_true, if_false,
                List.mem_singleton] at hle
              subst hle
              refine ⟨by simp, ?_⟩
              intro ie hie
              simp only [List.mem_singleton] at hie
              subst hie
              simpa [List.isEmpty_iff] using he
      · exact ih le hle

theorem refsDen_entries_ne_iff (api : CourseApi) (rs : List RefJson) :
    (refsDen api rs).entries ≠ [] ↔
      ∃ r ∈ rs, ∃ l, api.extract_links_from_reference r.shortId = some l ∧
        l ≠ [] := by
  induction rs with
  | nil => simp [refsDen]
  | cons r rest ih =>
      simp only [refsDen, List.mem_cons]
      constructor
      · intro h
        cases hl : api.extract_links_from_reference r.shortId with
        | none =>
            simp only [hl, List.nil_append] at h
            obtain ⟨q, hq, l, hql, hlne⟩ := ih.mp h
            exact ⟨q, Or.inr hq, l, hql, hlne⟩
        | some l =>
            by_cases he : l.isEmpty
            · simp only [hl, he, if_true, List.nil_append] at h
              obtain ⟨q, hq, l2, hql, hlne⟩ := ih.mp h
              exact ⟨q, Or.inr hq, l2, hql, hlne⟩
            · exact ⟨r, Or.inl rfl, l, hl,
                by simpa [List.isEmpty_iff] using he⟩
      · rintro ⟨q, hq | hq, l, hql, hlne⟩
        · subst hq
          rw [hql]
          simp [hlne, List.isEmpty_iff]
        · have : (refsDen api rest).entries ≠ [] :=
            ih.mpr ⟨q, hq, l, hql, hlne⟩
          intro hcon
          rcases List.append_eq_nil.mp hcon with ⟨_, h2⟩
          exact this h2

theorem dispatch_not_notebook (p : Params) (api : CourseApi)
    (class_id : String) (nb : Bool) (lecture : Item)
    (h : lecture.type_name ≠ "notebook") :
    (dispatch p api class_id nb lecture).2.1 = nb ∧
      (dispatch p api class_id nb lecture).2.2 = [] := by
  unfold dispatch
  split <;> simp_all

theorem dispatch_notebook_on (p : Params) (api : CourseApi)
    (class_id : String) (lecture : Item)
    (h : lecture.type_name = "notebook") (hdn : p.download_notebooks = true) :
    dispatch p api class_id false lecture =
      (.links (api.extract_links_from_notebook lecture.id), true,
        [lecture.id]) := by
  unfold dispatch
  rw [h, hdn]
  simp

theorem dispatch_notebook_guarded (p : Params) (api : CourseApi)
    (class_id : String) (nb : Bool) (lecture : Item)
    (h : lecture.type_name = "notebook")
    (hguard : (p.download_notebooks && !nb) = false) :
    dispatch p api class_id nb lecture = (.links (some []), nb, []) := by
  unfold dispatch
  rw [h, hguard]
  simp

/-- The dispatch sets the notebook flag exactly when it invokes the
notebook extraction routine, and never resets it. -/
theorem dispatch_flag (p : Params) (api : CourseApi) (class_id : String)
    (nb : Bool) (lecture : Item) :
    (dispatch p api class_id nb lecture).2.1 =
      (nb || !(dispatch p api class_id nb lecture).2.2.isEmpty) := by
  unfold dispatch
  split <;> (try split) <;> simp

/-- A run whose notebook flag is already set performs no notebook
invocation, keeps the flag set, and gives every notebook-typed item an
empty link map. -/
theorem itemsDen_true (p : Params) (api : CourseApi) (class_id : String)
    (items : List Item) :
    (itemsDen p api class_id true items).calls = [] ∧
      (itemsDen p api class_id true items).nb = true ∧
      ∀ r ∈ (itemsDen p api class_id true items).results,
        r.1.type_name = "notebook" → r.2 = .links (some []) := by
  induction items with
  | nil => simp [itemsDen]
  | cons x rest ih =>
      by_cases hx : x.type_name = "notebook"
      · have hd := dispatch_notebook_guarded p api class_id true x hx
          (by simp)
        simp only [itemsDen, hd]
        refine ⟨by simpa using ih.1, by simpa using ih.2.1, ?_⟩
        intro r hr
        simp only [List.mem_cons] at hr
        rcases hr with hr | hr
        · subst hr; intro; rfl
        · exact ih.2.2 r hr
      · have hd := dispatch_not_notebook p api class_id true x hx
        simp only [itemsDen, hd.1, hd.2]
        refine ⟨by simpa using ih.1, by simpa using ih.2.1, ?_⟩
        intro r hr
        simp only [List.nil_append, List.mem_cons] at hr
        rcases hr with hr | hr
        · subst hr; intro hcon; exact absurd hcon hx
        · exact ih.2.2 r hr

/-- The final notebook flag is the initial one, or-ed with whether any
notebook invocation happened during the run. -/
theorem itemsDen_nb_eq (p : Params) (api : CourseApi) (class_id : String)
    (items : List Item) : ∀ nb,
    (itemsDen p api class_id nb items).nb =
      (nb || !(itemsDen p api class_id nb items).calls.isEmpty) := by
  induction items with
  | nil => intro nb; simp [itemsDen]
  | cons x rest ih =>
      intro nb
      simp only [itemsDen, ih, dispatch_flag p api class_id nb x]
      cases hd : (dispatch p api class_id nb x).2.2 with
      | nil => simp
      | cons a t => simp [Bool.or_assoc]

/-- From a cleared flag, at most one notebook invocation happens. -/
theorem itemsDen_false_calls (p : Params) (api : CourseApi)
    (class_id : String) (items : List Item) :
    (itemsDen p api class_id false items).calls.length ≤ 1 := by
  induction items with
  | nil => simp [itemsDen]
  | cons x rest ih =>
      by_cases hx : x.type_name = "notebook"
      · by_cases hdn : p.download_notebooks = true
        · have hd := dispatch_notebook_on p api class_id x hx hdn
          simp only [itemsDen, hd]
          simpa using (itemsDen_true p api class_id rest).1
        · have hd := dispatch_notebook_guarded p api class_id false x hx
            (by simp [Bool.eq_false_iff.mpr hdn])
          simpa only [itemsDen, hd, List.nil_append] using ih
      · have hd := dispatch_not_notebook p api class_id false x hx
        simpa only [itemsDen, hd.1, hd.2, List.nil_append] using ih

/-- With `download_notebooks` set and a cleared flag, the notebook routine
is invoked for exactly the first notebook-typed item (if any), and every
later notebook-typed item gets the empty link map. -/
theorem itemsDen_notebook_first (p : Params) (api : CourseApi)
    (class_id : String) (hdn : p.download_notebooks = true)
    (items : List Item) :
    (itemsDen p api class_id false items).calls =
      (((nbFilter (itemsDen p api class_id false items).results).head?.map
        fun r => r.1.id).toList) ∧
    ∀ j r, (nbFilter (itemsDen p api class_id false items).results)[j]? =
        some r → 1 ≤ j → r.2 = .links (some []) := by
  induction items with
  | nil => simp [itemsDen, nbFilter]
  | cons x rest ih =>
      by_cases hx : x.type_name = "notebook"
      · have hd := dispatch_notebook_on p api class_id x hx hdn
        simp only [itemsDen, hd, nbFilter, List.filter_cons]
        have hxb : (x.type_name == "notebook") = true := by
          simp [hx]
        simp only [hxb, if_true]
        obtain ⟨hc, _, hall⟩ := itemsDen_true p api class_id rest
        constructor
        · simp [hc]
        · intro j r hj h1
          rcases j with _ | j2
          · omega
          · rw [List.getElem?_cons_succ] at hj
            have hr := List.getElem?_mem hj
            have hr2 := List.of_mem_filter hr
            have hr3 := List.mem_of_mem_filter hr
            exact hall r hr3 (by simpa using hr2)
      · have hd := dispatch_not_notebook p api class_id false x hx
        have hxb : (x.type_name == "notebook") = false := by
          simp [hx]
        simp only [itemsDen, hd.1, hd.2, List.nil_append, nbFilter,
          List.filter_cons, hxb, if_false]
        simpa only [nbFilter] using ih

/-- Claim C1: for every syllabus run, if at least one item's extraction
returns the failure sentinel (`None`), the run still processes all remaining
items (every reached item has a recorded result, in walk order) and returns
`error_occurred = true` together with a tree containing the content of every
item whose extraction returned a non-empty link map; an item returning
`None` contributes nothing to the tree (every link map in the tree is
non-empty) but does not abort the walk. -/
theorem claim_C1 (p : Params) (api : CourseApi) (class_id : String)
    (reverse : Bool) (index : String → Option Item) (mods : List Module)
    (hfail : ∃ r ∈ (get_modules CourseraExtractor.init p api class_id
      reverse index mods).2.2.results, errOf r.2 = true) :
    (get_modules CourseraExtractor.init p api class_id reverse index
        mods).1.1 = true ∧
    (get_modules CourseraExtractor.init p api class_id reverse index
        mods).2.2.results.map Prod.fst = reachedItems index mods ∧
    (∀ r ∈ (get_modules CourseraExtractor.init p api class_id reverse index
        mods).2.2.results, ∀ l, r.2 = DispatchResult.links (some l) →
      l ≠ [] →
      ∃ me ∈ (get_modules CourseraExtractor.init p api class_id reverse
          index mods).1.2, ∃ le ∈ me.2, (r.1.slug, l) ∈ le.2) ∧
    (∀ me ∈ (get_modules CourseraExtractor.init p api class_id reverse index
        mods).1.2, ∀ le ∈ me.2, ∀ ie ∈ le.2, ie.2 ≠ []) := by
  simp only [get_modules_den, CourseraExtractor.init] at hfail ⊢
  obtain ⟨r0, hr0, herr0⟩ := hfail
  have herrtrue : (itemsDen p api class_id false
      (reachedItems index mods)).err = true := by
    rw [itemsDen_err_eq]
    exact List.any_eq_true.mpr ⟨r0, hr0, herr0⟩
  refine ⟨by simp [herrtrue], itemsDen_results_map_fst p api class_id _ false,
    ?_, ?_⟩
  · intro r hr l hl hlne
    have hmem : (r.1, DispatchResult.links (some l)) ∈
        (itemsDen p api class_id false (reachedItems index mods)).results := by
      have : r = (r.1, DispatchResult.links (some l)) := by
        rw [← hl]
      exact this ▸ hr
    obtain ⟨me, hme, le, hle, hmem2⟩ :=
      moduleEntries_mem p api class_id index mods false r.1 l hmem hlne
    refine ⟨me, ?_, le, hle, hmem2⟩
    apply List.mem_append_left
    by_cases hne : (moduleEntries p api class_id index false mods).isEmpty <;>
      cases reverse <;> simp [hne, List.mem_reverse, hme]
  · intro me hme le hle ie hie
    rcases List.mem_append.mp hme with hme2 | hme2
    · have hmeM : me ∈ moduleEntries p api class_id index false mods := by
        by_cases hne : (moduleEntries p api class_id index false
          mods).isEmpty <;> cases reverse <;>
          simp_all [List.mem_reverse]
      exact (((moduleEntries_nonempty p api class_id index mods false
        me hmeM).2 le hle).2 ie hie)
    · by_cases hne : (refsDen api api.extract_references_poll).entries.isEmpty
      · simp [hne] at hme2
      · simp only [hne, Bool.false_eq_true, if_false,
          List.mem_singleton] at hme2
        subst hme2
        exact ((refsDen_entries_nonempty api api.extract_references_poll
          le hle).2 ie hie)

/-- Witness for C1 at a concrete two-item run: the lecture item fails, the
supplement item succeeds with one link. -/
theorem claim_C1_witness :
    (get_modules CourseraExtractor.init baseParams c1Api "c" false noIndex
        [c1Module]).1.1 = true ∧
    (get_modules CourseraExtractor.init baseParams c1Api "c" false noIndex
        [c1Module]).2.2.results.map Prod.fst =
      reachedItems noIndex [c1Module] ∧
    (∀ r ∈ (get_modules CourseraExtractor.init baseParams c1Api "c" false
        noIndex [c1Module]).2.2.results, ∀ l,
      r.2 = DispatchResult.links (some l) → l ≠ [] →
      ∃ me ∈ (get_modules CourseraExtractor.init baseParams c1Api "c" false
          noIndex [c1Module]).1.2, ∃ le ∈ me.2, (r.1.slug, l) ∈ le.2) ∧
    (∀ me ∈ (get_modules CourseraExtractor.init baseParams c1Api "c" false
        noIndex [c1Module]).1.2, ∀ le ∈ me.2, ∀ ie ∈ le.2, ie.2 ≠ []) :=
  claim_C1 baseParams c1Api "c" false noIndex [c1Module] (by decide)

/-- Claim C2: for every run from a fresh extractor with
`download_notebooks = true` containing two or more notebook-tagged items,
the notebook extraction routine is invoked for exactly the first such item
in walk order (the invocation list is exactly that item's id), and every
subsequent notebook-tagged item's recorded result is the empty link map, so
at most one notebook item can produce a non-empty link map. -/
theorem claim_C2 (p : Params) (api : CourseApi) (class_id : String)
    (reverse : Bool) (index : String → Option Item) (mods : List Module)
    (hdn : p.download_notebooks = true)
    (htwo : 2 ≤ (nbFilter (get_modules CourseraExtractor.init p api class_id
      reverse index mods).2.2.results).length) :
    (∀ r0, (nbFilter (get_modules CourseraExtractor.init p api class_id
        reverse index mods).2.2.results)[0]? = some r0 →
      (get_modules CourseraExtractor.init p api class_id reverse index
        mods).2.2.notebookCalls = [r0.1.id]) ∧
    (∀ j r, (nbFilter (get_modules CourseraExtractor.init p api class_id
        reverse index mods).2.2.results)[j]? = some r → 1 ≤ j →
      r.2 = DispatchResult.links (some [])) := by
  simp only [get_modules_den, CourseraExtractor.init] at htwo ⊢
  obtain ⟨hcalls, hrest⟩ :=
    itemsDen_notebook_first p api class_id hdn (reachedItems index mods)
  refine ⟨?_, hrest⟩
  intro r0 h0
  rw [← List.head?_eq_getElem?] at h0
  rw [hcalls, h0]
  rfl

/-- Witness for C2 at a concrete run with two notebook items. -/
theorem claim_C2_witness :
    (∀ r0, (nbFilter (get_modules CourseraExtractor.init c2Params c2Api "c"
        false noIndex [c2Module]).2.2.results)[0]? = some r0 →
      (get_modules CourseraExtractor.init c2Params c2Api "c" false noIndex
        [c2Module]).2.2.notebookCalls = [r0.1.id]) ∧
    (∀ j r, (nbFilter (get_modules CourseraExtractor.init c2Params c2Api "c"
        false noIndex [c2Module]).2.2.results)[j]? = some r → 1 ≤ j →
      r.2 = DispatchResult.links (some [])) :=
  claim_C2 c2Params c2Api "c" false noIndex [c2Module] (by decide) (by decide)

/-- Claim C3 (amended): for every lesson whose joined item list is empty,
if the flat item index has an entry under the lesson's id, the lesson is
processed with exactly that one item as its sole item and contributes at
most one item to the canonical tree — exactly one when that item's
extraction returns a non-empty link map, and none (the lesson is dropped)
when it returns the failure sentinel or an empty map; if the index has no
entry, the lesson yields no item and is dropped. -/
theorem claim_C3 (p : Params) (api : CourseApi) (class_id : String)
    (index : String → Option Item) (st : WalkState) (sec : Lesson)
    (hempty : sec.items = []) :
    (∀ it, index sec.id = some it →
      availableLectures index sec = [it] ∧
      (processSection p api class_id index st sec).1.results =
        st.results ++
          [(it, (dispatch p api class_id st.notebook_downloaded it).1)] ∧
      (∀ l, (dispatch p api class_id st.notebook_downloaded it).1 =
          DispatchResult.links (some l) → l ≠ [] →
        (processSection p api class_id index st sec).2 =
          some (sec.slug, [(it.slug, l)])) ∧
      (entryOf it (dispatch p api class_id st.notebook_downloaded it).1 =
          none →
        (processSection p api class_id index st sec).2 = none)) ∧
    (index sec.id = none →
      (processSection p api class_id index st sec).2 = none ∧
      (processSection p api class_id index st sec).1.results =
        st.results) := by
  constructor
  · intro it hit
    refine ⟨?_, ?_, ?_, ?_⟩
    · simp [availableLectures, hempty, hit]
    · simp [processSection, processLectures, processLecture,
        availableLectures, hempty, hit]
    · intro l hl hlne
      have hle : l.isEmpty = false := by simp [hlne]
      simp [processSection, processLectures, processLecture,
        availableLectures, hempty, hit, entryOf, hl, hle]
    · intro hnone
      simp [processSection, processLectures, processLecture,
        availableLectures, hempty, hit, hnone]
  · intro hmiss
    constructor <;>
      simp [processSection, processLectures, availableLectures, hempty,
        hmiss]

/-- Witness for C3 at a concrete empty lesson with an index entry whose
supplement extraction yields one link. -/
theorem claim_C3_witness :
    availableLectures c3Index c3Lesson = [c3Item] ∧
    (processSection baseParams c3Api "c" c3Index (initState false)
        c3Lesson).2 = some (c3Lesson.slug, [(c3Item.slug, [("f", "u")])]) := by
  obtain ⟨h1, _, h3, _⟩ :=
    (claim_C3 baseParams c3Api "c" c3Index (initState false) c3Lesson
      (by decide)).1 c3Item (by decide)
  exact ⟨h1, h3 [("f", "u")] (by decide) (by decide)⟩

/-- Counterexample to C3 as stated: the empty lesson has a matching index
entry, yet the canonical tree contains no item at all (rather than "exactly
one item"), because the fallback item's extraction returned the failure
sentinel; the run's error flag is set instead. -/
theorem claim_C3_counterexample :
    c3Index c3Lesson.id = some c3Item ∧
    c3Lesson.items = [] ∧
    (get_modules CourseraExtractor.init baseParams c3xApi "c" false c3Index
        [c3Module]).1.2 = [] ∧
    (get_modules CourseraExtractor.init baseParams c3xApi "c" false c3Index
        [c3Module]).1.1 = true := by
  decide

/-- Claim C4: for every assembled tree of modules, the run with `reverse`
set returns the reverse of the document-order module list (then the
Resources suffix), the run with `reverse` clear returns the document-order
list itself, and reversal only permutes the top level: the very same module
entries — each with its internal lesson/item order intact — appear in
both. -/
theorem claim_C4 (e : CourseraExtractor) (p : Params) (api : CourseApi)
    (class_id : String) (index : String → Option Item) (mods : List Module) :
    (get_modules e p api class_id true index mods).1.2 =
      (moduleEntries p api class_id index e.notebook_downloaded
          mods).reverse ++
        (if (refsDen api api.extract_references_poll).entries.isEmpty
          then []
          else [("Resources",
            (refsDen api api.extract_references_poll).entries)]) ∧
    (get_modules e p api class_id false index mods).1.2 =
      moduleEntries p api class_id index e.notebook_downloaded mods ++
        (if (refsDen api api.extract_references_poll).entries.isEmpty
          then []
          else [("Resources",
            (refsDen api api.extract_references_poll).entries)]) ∧
    (∀ me, me ∈ (moduleEntries p api class_id index e.notebook_downloaded
        mods).reverse ↔
      me ∈ moduleEntries p api class_id index e.notebook_downloaded mods) := by
  refine ⟨?_, ?_, fun me => List.mem_reverse⟩
  · simp only [get_modules_den]
    by_cases h : (moduleEntries p api class_id index e.notebook_downloaded
      mods).isEmpty
    · rw [List.isEmpty_iff] at h
      simp [h]
    · simp [h]
  · simp [get_modules_den]

/-- Claim C5: whenever the `"Resources"` pseudo-module is appended (the
computed references list is non-empty), it is the last entry of the
returned tree, for either value of the `reverse` flag: the reversal happens
before the append. -/
theorem claim_C5 (e : CourseraExtractor) (p : Params) (api : CourseApi)
    (class_id : String) (reverse : Bool) (index : String → Option Item)
    (mods : List Module)
    (h : (refsDen api api.extract_references_poll).entries ≠ []) :
    (get_modules e p api class_id reverse index mods).1.2.getLast? =
      some ("Resources",
        (refsDen api api.extract_references_poll).entries) := by
  simp only [get_modules_den]
  have hne : (refsDen api api.extract_references_poll).entries.isEmpty =
      false := by simp [h]
  rw [hne]
  simp [List.getLast?_concat]

/-- Witness for C5: a run with one productive reference and reversal on. -/
theorem claim_C5_witness :
    (get_modules CourseraExtractor.init baseParams c5Api "c" true noIndex
        []).1.2.getLast? =
      some ("Resources",
        (refsDen c5Api c5Api.extract_references_poll).entries) :=
  claim_C5 CourseraExtractor.init baseParams c5Api "c" true noIndex []
    (by decide)

/-- Claim C8 (amended): the returned tree carries a trailing `"Resources"`
entry exactly when at least one polled course-level reference's extraction
returns a non-empty link map; a non-empty poll whose extractions all come
back empty or failed appends nothing. -/
theorem claim_C8_amended (e : CourseraExtractor) (p : Params)
    (api : CourseApi) (class_id : String) (reverse : Bool)
    (index : String → Option Item) (mods : List Module) :
    ((refsDen api api.extract_references_poll).entries ≠ [] ↔
      ∃ r ∈ api.extract_references_poll, ∃ l,
        api.extract_links_from_reference r.shortId = some l ∧ l ≠ []) ∧
    ((refsDen api api.extract_references_poll).entries ≠ [] →
      (get_modules e p api class_id reverse index mods).1.2.getLast? =
        some ("Resources",
          (refsDen api api.extract_references_poll).entries)) ∧
    ((refsDen api api.extract_references_poll).entries = [] →
      (get_modules e p api class_id reverse index mods).1.2 =
        (if !(moduleEntries p api class_id index e.notebook_downloaded
              mods).isEmpty && reverse
          then (moduleEntries p api class_id index e.notebook_downloaded
            mods).reverse
          else moduleEntries p api class_id index e.notebook_downloaded
            mods)) := by
  refine ⟨refsDen_entries_ne_iff api _, ?_, ?_⟩
  · intro h
    simp only [get_modules_den]
    have hne : (refsDen api api.extract_references_poll).entries.isEmpty =
        false := by simp [h]
    rw [hne]
    simp [List.getLast?_concat]
  · intro h
    simp only [get_modules_den]
    simp [h]

/-- Witness for C8 (amended) at a run with one productive reference. -/
theorem claim_C8_witness :
    (get_modules CourseraExtractor.init baseParams c8wApi "c" false noIndex
        []).1.2.getLast? =
      some ("Resources",
        (refsDen c8wApi c8wApi.extract_references_poll).entries) :=
  (claim_C8_amended CourseraExtractor.init baseParams c8wApi "c" false
    noIndex []).2.1 (by decide)

/-- Counterexample to C8 as stated: the reference poll is non-empty, yet —
because every reference extraction returns an empty link map — the
returned tree contains no `"Resources"` entry at all. -/
theorem claim_C8_counterexample :
    c8Api.extract_references_poll ≠ [] ∧
    (get_modules CourseraExtractor.init baseParams c8Api "c" false noIndex
        []).1.2 = [] := by
  decide

/-- Claim C6 (spec-modelled catalog store): a get-or-create call whose
unique external id already has a row returns that row unchanged, whatever
other attributes the call supplies; otherwise it inserts a row with the
supplied attributes; in both cases the unique-key conflict is never
raised. -/
theorem claim_C6 (table : List StoreRow) (key : String)
    (attrs : List (String × String)) :
    (∀ r, table.find? (fun q => q.key == key) = some r →
      get_or_create table key attrs = .ok (r, table, false)) ∧
    (table.find? (fun q => q.key == key) = none →
      get_or_create table key attrs =
        .ok (⟨key, attrs⟩, table ++ [⟨key, attrs⟩], true)) ∧
    (∃ x, get_or_create table key attrs = .ok x) := by
  have h2 : table.find? (fun q => q.key == key) = none →
      get_or_create table key attrs =
        .ok (⟨key, attrs⟩, table ++ [⟨key, attrs⟩], true) := by
    intro hn
    have hany : (table.any fun r => r.key == key) = false := by
      rw [List.any_eq_false]
      intro q hq
      simpa using List.find?_eq_none.mp hn q hq
    simp [get_or_create, hn, storeInsert, hany]
  refine ⟨?_, h2, ?_⟩
  · intro r hr
    simp [get_or_create, hr]
  · cases hf : table.find? (fun q => q.key == key) with
    | some r => exact ⟨(r, table, false), by simp [get_or_create, hf]⟩
    | none => exact ⟨_, h2 hf⟩

/-- Witness for C6: a call supplying different attributes for an existing
key returns the stored row unchanged (and raises nothing). -/
theorem claim_C6_witness :
    get_or_create c6Table "k1" [("name", "new")] =
      .ok (⟨"k1", [("name", "old")]⟩, c6Table, false) :=
  (claim_C6 c6Table "k1" [("name", "new")]).1 ⟨"k1", [("name", "old")]⟩
    (by decide)

/-- Claim C7: when the first catalog attempt fails with the missing-schema
`OperationalError`, `create_db_course` creates the tables and retries the
same get-or-create exactly once (trace: attempt, create-tables, attempt —
no second retry); if that single retry also fails, its error propagates to
the caller, and if it succeeds nothing propagates. -/
theorem claim_C7 (second : DbAttempt) :
    (create_db_course .operationalError second).2 =
      [.getOrCreateAttempt, .createTablesCall, .getOrCreateAttempt] ∧
    (second = .ok → (create_db_course .operationalError second).1 = none) ∧
    (second ≠ .ok →
      (create_db_course .operationalError second).1 = some second) := by
  refine ⟨rfl, ?_, ?_⟩
  · intro h
    subst h
    rfl
  · intro h
    cases second with
    | ok => exact absurd rfl h
    | operationalError => rfl
    | otherError => rfl

/-- Witness for C7: both attempts fail with `OperationalError`; the trace
shows exactly one table creation and one retry, and the second failure
propagates. -/
theorem claim_C7_witness :
    (create_db_course .operationalError .operationalError).2 =
      [.getOrCreateAttempt, .createTablesCall, .getOrCreateAttempt] ∧
    (create_db_course .operationalError .operationalError).1 =
      some .operationalError :=
  ⟨(claim_C7 .operationalError).1,
    (claim_C7 .operationalError).2.2 (by decide)⟩

/-- Claim C9: the notebook flag is set exactly by a notebook invocation
(also when the extraction returns the failure sentinel or an empty map —
the flag update does not inspect the result), it lives on the extractor
instance and is never reset (final flag = initial flag OR-ed with "a call
happened"), and across two successive `get_modules` runs on the same
instance at most one notebook extraction happens in total. -/
theorem claim_C9 (p1 : Params) (api1 : CourseApi) (cid1 : String)
    (rev1 : Bool) (ix1 : String → Option Item) (mods1 : List Module)
    (p2 : Params) (api2 : CourseApi) (cid2 : String) (rev2 : Bool)
    (ix2 : String → Option Item) (mods2 : List Module) :
    (∀ (nb : Bool) (it : Item),
      (dispatch p1 api1 cid1 nb it).2.1 =
        (nb || !(dispatch p1 api1 cid1 nb it).2.2.isEmpty)) ∧
    (∀ e : CourseraExtractor,
      (get_modules e p1 api1 cid1 rev1 ix1 mods1).2.1.notebook_downloaded =
        (e.notebook_downloaded ||
          !(get_modules e p1 api1 cid1 rev1 ix1
              mods1).2.2.notebookCalls.isEmpty)) ∧
    ((get_modules CourseraExtractor.init p1 api1 cid1 rev1 ix1
          mods1).2.2.notebookCalls.length +
        (get_modules (get_modules CourseraExtractor.init p1 api1 cid1 rev1
            ix1 mods1).2.1 p2 api2 cid2 rev2 ix2
            mods2).2.2.notebookCalls.length ≤ 1) := by
  refine ⟨dispatch_flag p1 api1 cid1, ?_, ?_⟩
  · intro e
    simp only [get_modules_den]
    exact itemsDen_nb_eq p1 api1 cid1 _ e.notebook_downloaded
  · simp only [get_modules_den, CourseraExtractor.init]
    cases hc : (itemsDen p1 api1 cid1 false
      (reachedItems ix1 mods1)).calls with
    | nil =>
        have hnb := itemsDen_nb_eq p1 api1 cid1 (reachedItems ix1 mods1)
          false
        rw [hc] at hnb
        simp only [List.isEmpty_nil, Bool.not_true, Bool.or_false] at hnb
        rw [hnb]
        simpa using itemsDen_false_calls p2 api2 cid2 (reachedItems ix2
          mods2)
    | cons a t =>
        have hnb := itemsDen_nb_eq p1 api1 cid1 (reachedItems ix1 mods1)
          false
        rw [hc] at hnb
        simp only [List.isEmpty_cons, Bool.not_false, Bool.or_true] at hnb
        rw [hnb]
        rw [(itemsDen_true p2 api2 cid2 (reachedItems ix2 mods2)).1]
        have hlen := itemsDen_false_calls p1 api1 cid1
          (reachedItems ix1 mods1)
        rw [hc] at hlen
        simpa using hlen

/-- Claim C10: every item reached in the module/lesson/item walk — the
fallback-supplied ones included — is persisted to the catalog
(`Item.get_or_create`) immediately before its type dispatch runs, and every
reached item has a recorded result, regardless of whether its type is
unsupported, its policy flag is off, or its extraction yields empty or
failed links. -/
theorem claim_C10 (e : CourseraExtractor) (p : Params) (api : CourseApi)
    (class_id : String) (reverse : Bool) (index : String → Option Item)
    (mods : List Module) :
    (get_modules e p api class_id reverse index mods).2.2.itemTrace =
      (reachedItems index mods).flatMap
        (fun it => [ItemEvent.persist it.id, ItemEvent.dispatched it.id]) ∧
    (get_modules e p api class_id reverse index mods).2.2.results.map
        Prod.fst = reachedItems index mods := by
  simp only [get_modules_den]
  exact ⟨rfl, itemsDen_results_map_fst p api class_id _ e.notebook_downloaded⟩

end CourseraDL
